import Mathlib

/-!
Verification development for the pydocs introspection engine
(src/pydocs/inspector.py and src/pydocs/models.py), over a shallow
embedding.  The Python runtime's reflection capabilities (module loading
by name, attribute access, member enumeration, signature and source
queries, repr) are modelled as an environment `Env`: a heap of `ObjData`
records (one per runtime object, addressed by `Nat` ids) together with
the two fallible lookup capabilities used by the resolver.  Python
exceptions are the `Exc` type and fallible code runs in `Except Exc`.
-/

namespace PyDocs

/-- Python exception classes that the inspector's handlers distinguish.
`other` stands for every exception class the code never catches by name
(apart from the catch-all `except Exception` at the `inspect_path`
boundary, which catches all of these). -/
inductive Exc where
  | importError (m : String)
  | attributeError (m : String)
  | valueError (m : String)
  | typeError (m : String)
  | osError (m : String)
  | other (m : String)
deriving DecidableEq

/-- str(e): the message carried by the exception. -/
def Exc.msg : Exc → String
  | .importError m => m
  | .attributeError m => m
  | .valueError m => m
  | .typeError m => m
  | .osError m => m
  | .other m => m

/-- models.MemberKind. -/
inductive MemberKind where
  | MODULE | PACKAGE | CLASS | FUNCTION | METHOD | CLASSMETHOD
  | STATICMETHOD | PROPERTY | CONSTANT | VARIABLE | BUILTIN | DATA
deriving DecidableEq

/-- models.ParameterKind. -/
inductive ParameterKind where
  | POSITIONAL_ONLY | POSITIONAL_OR_KEYWORD | VAR_POSITIONAL
  | KEYWORD_ONLY | VAR_KEYWORD
deriving DecidableEq

/-- The parameter-kind constants of the reflection provider
(inspect.Parameter.POSITIONAL_ONLY and friends). -/
inductive PyParamKind where
  | POSITIONAL_ONLY | POSITIONAL_OR_KEYWORD | VAR_POSITIONAL
  | KEYWORD_ONLY | VAR_KEYWORD
deriving DecidableEq

/-- models.ParameterInfo.  The source field `annotation` is rendered here
as `annot` (same content, provider-rendered string or absent). -/
structure ParameterInfo where
  name : String
  kind : ParameterKind
  annot : Option String := none
  default : Option String := none
  has_default : Bool := false
deriving DecidableEq

/-- models.SignatureInfo (field `return_annotation` rendered as
`return_annot`). -/
structure SignatureInfo where
  parameters : List ParameterInfo := []
  return_annot : Option String := none
  raw_signature : Option String := none
deriving DecidableEq

/-- models.SourceInfo. -/
structure SourceInfo where
  source : Option String := none
  file_path : Option String := none
  start_line : Option Nat := none
  end_line : Option Nat := none
  is_builtin : Bool := false
deriving DecidableEq

/-- models.MemberInfo. -/
structure MemberInfo where
  name : String
  kind : MemberKind
  qualified_name : String
  docstring : Option String := none
  signature : Option SignatureInfo := none
  source : Option SourceInfo := none
  is_private : Bool := false
  is_dunder : Bool := false
  defining_module : Option String := none
  is_imported : Bool := false
  value_repr : Option String := none
deriving DecidableEq

/-- models.ClassInfo (dataclass inheriting MemberInfo). -/
structure ClassInfo extends MemberInfo where
  bases : List String := []
  mro : List String := []
  methods : List MemberInfo := []
  class_methods : List MemberInfo := []
  static_methods : List MemberInfo := []
  properties : List MemberInfo := []
  class_variables : List MemberInfo := []
  is_abstract : Bool := false
deriving DecidableEq

/-- models.ModuleInfo (dataclass inheriting MemberInfo).  The source
field `variables` is rendered here as `vars` (reserved word in Lean). -/
structure ModuleInfo extends MemberInfo where
  is_package : Bool := false
  file_path : Option String := none
  submodules : List String := []
  classes : List ClassInfo := []
  functions : List MemberInfo := []
  constants : List MemberInfo := []
  vars : List MemberInfo := []
deriving DecidableEq

/-- The union type MemberInfo | ClassInfo | ModuleInfo of
InspectionResult.info. -/
inductive Info where
  | member (m : MemberInfo)
  | cls (c : ClassInfo)
  | mod (m : ModuleInfo)
deriving DecidableEq

/-- The qualified_name carried by whichever variant `Info` holds. -/
def Info.qn : Info → String
  | .member m => m.qualified_name
  | .cls c => c.qualified_name
  | .mod m => m.qualified_name

/-- The kind carried by whichever variant `Info` holds. -/
def Info.infoKind : Info → MemberKind
  | .member m => m.kind
  | .cls c => c.kind
  | .mod m => m.kind

/-- models.InspectionResult. -/
structure InspectionResult where
  target : String
  resolved_path : String
  kind : MemberKind
  info : Info
  error : Option String := none
deriving DecidableEq

/-- A reference to a base class as seen through the provider:
its __name__ and whether it is identical (`is`) to the universal root
`object`.  Identity to the root is what `inspector.py` tests with
`b is not object`; names of distinct classes may collide. -/
structure BaseRef where
  name : String
  isRoot : Bool
deriving DecidableEq

/-- One record of inspect.classify_class_attrs(cls): attribute name, the
kind string the provider reports, whether the defining class is `cls`
itself (the code tests `attr.defining_class != cls`), and the attribute
value. -/
structure ClassAttr where
  name : String
  kind : String
  definingIsSelf : Bool
  obj : Nat
deriving DecidableEq

/-- One provider-level parameter descriptor (inspect.Parameter): name,
kind constant, rendered annotation (absent when Parameter.empty) and
rendered default (absent when Parameter.empty). -/
structure RawParam where
  name : String
  kind : PyParamKind
  annot : Option String := none
  defaultRepr : Option String := none
deriving DecidableEq

/-- The provider's answer to inspect.signature(obj) when it succeeds:
ordered parameters, rendered return annotation, and str(sig). -/
structure RawSignature where
  params : List RawParam := []
  returnAnnot : Option String := none
  rawString : String := ""
deriving DecidableEq

/-- The provider's answer to getsource/getsourcefile/getsourcelines when
they succeed: source text, source file, 1-indexed start line and the
number of lines. -/
structure RawSource where
  text : String := ""
  file : Option String := none
  startLine : Nat := 1
  numLines : Nat := 1
deriving DecidableEq

/-- Everything the reflection provider can report about one runtime
object.  Fields of type `Except` model provider queries that can raise.
`dunderModule = none` means the object has no __module__ attribute;
`some none` means the attribute exists and is None. -/
structure ObjData where
  isModule : Bool := false
  hasPath : Bool := false
  isClass : Bool := false
  isBuiltin : Bool := false
  isFunction : Bool := false
  isMethod : Bool := false
  isClassmethod : Bool := false
  isStaticmethod : Bool := false
  isProperty : Bool := false
  isScalar : Bool := false
  isCallable : Bool := false
  isAbstract : Bool := false
  doc : Option String := none
  dunderModule : Option (Option String) := none
  moduleName : String := ""
  moduleFile : Option String := none
  pathListing : Except Unit (List String) := .ok []
  members : List (String × Nat) := []
  clsName : String := ""
  clsBases : List BaseRef := []
  clsMro : List BaseRef := []
  classAttrs : List ClassAttr := []
  sigResult : Except Exc RawSignature := .error (.valueError "")
  srcResult : Except Exc RawSource := .error (.osError "")
  getfileRes : Except Exc String := .error (.typeError "")
  reprResult : Except Unit String := .ok ""
  typeName : String := ""

/-- The reflection provider: the heap of live objects plus the two
fallible lookups the resolver uses — importlib.import_module modelled as
`loadModule`, and getattr modelled as `getAttrib`. -/
structure Env where
  heap : Nat → ObjData
  loadModule : String → Except Exc Nat
  getAttrib : Nat → String → Except Exc Nat

/-- Helper for Python str.split("."): split a character list on a
separator character; always returns at least one (possibly empty)
group. -/
def splitCharAux (sep : Char) : List Char → List (List Char)
  | [] => [[]]
  | c :: rest =>
    match splitCharAux sep rest with
    | [] => [[c]]
    | g :: gs => if c = sep then [] :: g :: gs else (c :: g) :: gs

/-- Python path.split("."): e.g. "a.b" to ["a", "b"], "" to [""].
Structural stand-in for String.splitOn so terms evaluate by rfl. -/
def pySplitDot (s : String) : List String :=
  (splitCharAux '.' s.data).map (fun l => String.mk l)

/-- Python name.startswith(pre). -/
def pyStartsWith (s pre : String) : Bool :=
  pre.data.isPrefixOf s.data

/-- Python name.endswith(suf). -/
def pyEndsWith (s suf : String) : Bool :=
  suf.data.isSuffixOf s.data

/-- Python `"." in path`. -/
def pyContainsDot (s : String) : Bool :=
  s.data.contains '.'

/-- Code-point lexicographic comparison on character lists: the order
Python uses for str comparison in sorted(). -/
def charsLe : List Char → List Char → Bool
  | [], _ => true
  | _ :: _, [] => false
  | a :: as, b :: bs =>
    if a.toNat < b.toNat then true
    else if b.toNat < a.toNat then false
    else charsLe as bs

/-- Python str less-or-equal (code-point lexicographic). -/
def pyStrLe (a b : String) : Bool :=
  charsLe a.data b.data

/-- Insert an element into a list, before the first element it compares
le to (the insertion step of a stable ascending sort). -/
def pyInsert (le : α → α → Bool) (x : α) : List α → List α
  | [] => [x]
  | y :: ys => if le x y then x :: y :: ys else y :: pyInsert le x ys

/-- Python sorted(list, key=...): stable ascending sort modelled as
insertion sort (structural, so terms evaluate by rfl). -/
def pySorted (le : α → α → Bool) : List α → List α
  | [] => []
  | x :: xs => pyInsert le x (pySorted le xs)

/-- Python ".".join(parts). -/
def pyJoinDot : List String → String
  | [] => ""
  | [a] => a
  | a :: rest => a ++ "." ++ pyJoinDot rest

/-- The attribute-traversal loop inside resolve_dotted_path:
`for attr in parts[i:]: obj = getattr(obj, attr)`. -/
def traverseAttrs (env : Env) : Nat → List String → Except Exc Nat
  | o, [] => .ok o
  | o, a :: rest =>
    match env.getAttrib o a with
    | .ok o2 => traverseAttrs env o2 rest
    | .error e => .error e

/-- One iteration of resolve_dotted_path's loop at split index `i`:
load ".".join(parts[:i]) as a module, then traverse parts[i:] as
attributes; on full success return (object, module_path, parts[i:]). -/
def tryCandidate (env : Env) (parts : List String) (i : Nat) :
    Except Exc (Nat × String × List String) :=
  match env.loadModule (pyJoinDot (parts.take i)) with
  | .error e => .error e
  | .ok m =>
    match traverseAttrs env m (parts.drop i) with
    | .ok o => .ok (o, pyJoinDot (parts.take i), parts.drop i)
    | .error e => .error e

/-- Whether the resolver's two `except` clauses (ImportError,
AttributeError) catch this exception. -/
def Exc.caughtByResolve : Exc → Bool
  | .importError _ => true
  | .attributeError _ => true
  | _ => false

/-- The countdown loop of resolve_dotted_path: `for i in
range(len(parts), 0, -1)`, continuing past caught failures, ending in
`raise ImportError(f"Cannot resolve path: ...")`. -/
def resolveGo (env : Env) (path : String) (parts : List String) :
    Nat → Except Exc (Nat × String × List String)
  | 0 => .error (.importError ("Cannot resolve path: " ++ path))
  | i + 1 =>
    match tryCandidate env parts (i + 1) with
    | .ok r => .ok r
    | .error e =>
      if e.caughtByResolve then resolveGo env path parts i else .error e

/-- inspector.resolve_dotted_path. -/
def resolve_dotted_path (env : Env) (path : String) :
    Except Exc (Nat × String × List String) :=
  resolveGo env path (pySplitDot path) (pySplitDot path).length

/-- Python str.isupper(): at least one cased character and no lower-case
cased character (ASCII model: cased = alphabetic). -/
def pyIsUpper (s : String) : Bool :=
  s.data.any (fun c => c.isAlpha) && s.data.all (fun c => !c.isLower)

/-- inspector.classify_object. -/
def classify_object (env : Env) (o : Nat) (name : String) : MemberKind :=
  let d := env.heap o
  if d.isModule then (if d.hasPath then .PACKAGE else .MODULE)
  else if d.isClass then .CLASS
  else if d.isBuiltin then .BUILTIN
  else if d.isFunction then .FUNCTION
  else if d.isMethod then .METHOD
  else if d.isClassmethod then .CLASSMETHOD
  else if d.isStaticmethod then .STATICMETHOD
  else if d.isProperty then .PROPERTY
  else if name ≠ "" && pyIsUpper name && d.isScalar then .CONSTANT
  else .VARIABLE

/-- The kind_map dictionary of extract_signature. -/
def kind_map : PyParamKind → ParameterKind
  | .POSITIONAL_ONLY => .POSITIONAL_ONLY
  | .POSITIONAL_OR_KEYWORD => .POSITIONAL_OR_KEYWORD
  | .VAR_POSITIONAL => .VAR_POSITIONAL
  | .KEYWORD_ONLY => .KEYWORD_ONLY
  | .VAR_KEYWORD => .VAR_KEYWORD

/-- inspector.extract_signature.  The try/except catches exactly
(ValueError, TypeError) around the provider's signature query and maps
them to None; any other exception from the query propagates. -/
def extract_signature (env : Env) (o : Nat) : Except Exc (Option SignatureInfo) :=
  match (env.heap o).sigResult with
  | .error (.valueError _) => .ok none
  | .error (.typeError _) => .ok none
  | .error e => .error e
  | .ok sig =>
    .ok (some
      { parameters := sig.params.map (fun p =>
          { name := p.name
            kind := kind_map p.kind
            annot := p.annot
            default := p.defaultRepr
            has_default := p.defaultRepr.isSome })
        return_annot := sig.returnAnnot
        raw_signature := some sig.rawString })

/-- inspector.extract_source.  Catches (OSError, TypeError) around the
source query; on the fallback path catches TypeError around getfile. -/
def extract_source (env : Env) (o : Nat) : Except Exc SourceInfo :=
  match (env.heap o).srcResult with
  | .ok raw =>
    .ok { source := some raw.text
          file_path := raw.file
          start_line := some raw.startLine
          end_line := some (raw.startLine + raw.numLines - 1)
          is_builtin := false }
  | .error (.osError _) =>
    match (env.heap o).getfileRes with
    | .ok f => .ok { is_builtin := true, file_path := some f }
    | .error (.typeError _) => .ok { is_builtin := true, file_path := none }
    | .error e => .error e
  | .error (.typeError _) =>
    match (env.heap o).getfileRes with
    | .ok f => .ok { is_builtin := true, file_path := some f }
    | .error (.typeError _) => .ok { is_builtin := true, file_path := none }
    | .error e => .error e
  | .error e => .error e

/-- inspector._safe_repr with its default max_len = 80. -/
def _safe_repr (env : Env) (o : Nat) : String :=
  match (env.heap o).reprResult with
  | .ok r => if r.length > 80 then (r.take 77) ++ "..." else r
  | .error _ => "<" ++ (env.heap o).typeName ++ ">"

/-- inspector._create_member_info. -/
def _create_member_info (env : Env) (o : Nat) (name : String)
    (kind : MemberKind) (parent_path : String) (is_imported : Bool) :
    Except Exc MemberInfo :=
  let d := env.heap o
  match (if d.isCallable then extract_signature env o else .ok none) with
  | .error e => .error e
  | .ok sig => .ok
    { name := name
      kind := kind
      qualified_name := parent_path ++ "." ++ name
      docstring := d.doc
      signature := sig
      source := none
      is_private := pyStartsWith name "_"
      is_dunder := pyStartsWith name "__" && pyEndsWith name "__"
      defining_module := none
      is_imported := is_imported
      value_repr := none }

/-- The member_kind_map dictionary of inspect_class, with its
`.get(attr.kind, MemberKind.VARIABLE)` default. -/
def member_kind_map (k : String) : MemberKind :=
  if k = "method" then .METHOD
  else if k = "class method" then .CLASSMETHOD
  else if k = "static method" then .STATICMETHOD
  else if k = "property" then .PROPERTY
  else if k = "data" then .DATA
  else .VARIABLE

/-- Python sorted(list, key=lambda x: x.name): ascending by name. -/
def sortByName (l : List MemberInfo) : List MemberInfo :=
  pySorted (fun a b => pyStrLe a.name b.name) l

/-- Python sorted(list, key=lambda c: c.name) over ClassInfo. -/
def sortByNameC (l : List ClassInfo) : List ClassInfo :=
  pySorted (fun a b => pyStrLe a.name b.name) l

/-- The attribute loop of inspect_class over
inspect.classify_class_attrs(cls), returning the five buckets (methods,
class methods, static methods, properties, class variables) in
enumeration order. -/
def classScan (env : Env) (qualified_name : String) (include_private : Bool) :
    List ClassAttr →
    Except Exc (List MemberInfo × List MemberInfo × List MemberInfo ×
                List MemberInfo × List MemberInfo)
  | [] => .ok ([], [], [], [], [])
  | attr :: rest =>
    if !include_private && pyStartsWith attr.name "_" then
      classScan env qualified_name include_private rest
    else
      match _create_member_info env attr.obj attr.name
        (member_kind_map attr.kind) qualified_name (!attr.definingIsSelf) with
      | .error e => .error e
      | .ok info =>
        match classScan env qualified_name include_private rest with
        | .error e => .error e
        | .ok (ms, cms, sms, ps, cvs) =>
          if attr.kind = "method" then
            .ok (info :: ms, cms, sms, ps, cvs)
          else if attr.kind = "class method" then
            .ok (ms, info :: cms, sms, ps, cvs)
          else if attr.kind = "static method" then
            .ok (ms, cms, info :: sms, ps, cvs)
          else if attr.kind = "property" then
            .ok (ms, cms, sms, info :: ps, cvs)
          else if attr.kind = "data" then
            .ok (ms, cms, sms, ps,
              { info with value_repr := some (_safe_repr env attr.obj) } :: cvs)
          else
            .ok (ms, cms, sms, ps, cvs)

/-- inspector.inspect_class. -/
def inspect_class (env : Env) (cls : Nat) (qualified_name : String)
    (include_private : Bool) : Except Exc ClassInfo :=
  let d := env.heap cls
  match classScan env qualified_name include_private d.classAttrs with
  | .error e => .error e
  | .ok (methods, class_methods, static_methods, properties, class_variables) =>
    match extract_signature env cls with
    | .error e => .error e
    | .ok sig =>
      .ok { name := d.clsName
            kind := .CLASS
            qualified_name := qualified_name
            docstring := d.doc
            signature := sig
            bases := (d.clsBases.filter (fun b => !b.isRoot)).map (fun b => b.name)
            mro := ((d.clsMro.drop 1).dropLast).map (fun c => c.name)
            methods := sortByName methods
            class_methods := sortByName class_methods
            static_methods := sortByName static_methods
            properties := sortByName properties
            class_variables := sortByName class_variables
            is_abstract := d.isAbstract }

/-- Submodule discovery in inspect_module: pkgutil.iter_modules over
__path__ when present, with `except Exception: pass`. -/
def discoverSubmodules (env : Env) (m : Nat) : List String :=
  let d := env.heap m
  if d.hasPath then
    match d.pathListing with
    | .ok l => l
    | .error _ => []
  else []

/-- The member loop of inspect_module over inspect.getmembers(module),
returning the four buckets (classes, functions, constants, variables)
in enumeration order.  Kinds with no branch (e.g. METHOD, PROPERTY at
module level) are silently dropped, as in the source. -/
def moduleScan (env : Env) (module_name : String)
    (include_private include_imported : Bool) :
    List (String × Nat) →
    Except Exc (List ClassInfo × List MemberInfo × List MemberInfo ×
                List MemberInfo)
  | [] => .ok ([], [], [], [])
  | (name, o) :: rest =>
    if !include_private && pyStartsWith name "_" then
      moduleScan env module_name include_private include_imported rest
    else if (env.heap o).isModule then
      moduleScan env module_name include_private include_imported rest
    else
      let obj_module : Option String := (env.heap o).dunderModule.getD none
      let is_imported : Bool :=
        match obj_module with
        | none => false
        | some m => decide (m ≠ module_name)
      if !include_imported && is_imported then
        moduleScan env module_name include_private include_imported rest
      else
        let kind := classify_object env o name
        if kind = .CLASS then
          match inspect_class env o (module_name ++ "." ++ name) include_private with
          | .error e => .error e
          | .ok c =>
            match moduleScan env module_name include_private include_imported rest with
            | .error e => .error e
            | .ok (cs, fs, ks, vs) => .ok (c :: cs, fs, ks, vs)
        else if kind = .FUNCTION ∨ kind = .BUILTIN then
          match _create_member_info env o name kind module_name is_imported with
          | .error e => .error e
          | .ok f =>
            match moduleScan env module_name include_private include_imported rest with
            | .error e => .error e
            | .ok (cs, fs, ks, vs) => .ok (cs, f :: fs, ks, vs)
        else if kind = .CONSTANT then
          match _create_member_info env o name kind module_name is_imported with
          | .error e => .error e
          | .ok i =>
            match moduleScan env module_name include_private include_imported rest with
            | .error e => .error e
            | .ok (cs, fs, ks, vs) =>
              .ok (cs, fs, { i with value_repr := some (_safe_repr env o) } :: ks, vs)
        else if kind = .VARIABLE then
          match _create_member_info env o name kind module_name is_imported with
          | .error e => .error e
          | .ok i =>
            match moduleScan env module_name include_private include_imported rest with
            | .error e => .error e
            | .ok (cs, fs, ks, vs) =>
              .ok (cs, fs, ks, { i with value_repr := some (_safe_repr env o) } :: vs)
        else
          moduleScan env module_name include_private include_imported rest

/-- inspector.inspect_module. -/
def inspect_module (env : Env) (m : Nat)
    (include_private include_imported : Bool) : Except Exc ModuleInfo :=
  let d := env.heap m
  let module_name := d.moduleName
  let submodules := discoverSubmodules env m
  match moduleScan env module_name include_private include_imported d.members with
  | .error e => .error e
  | .ok (classes, functions, constants, vars) => .ok
    { name := (pySplitDot module_name).getLastD ""
      kind := if submodules.isEmpty then .MODULE else .PACKAGE
      qualified_name := module_name
      docstring := d.doc
      is_package := !submodules.isEmpty || d.hasPath
      file_path := d.moduleFile
      submodules := pySorted pyStrLe submodules
      classes := sortByNameC classes
      functions := sortByName functions
      constants := sortByName constants
      vars := sortByName vars }

/-- The try-block body of inspect_path: resolve, classify by terminal
name, dispatch to the module/class/leaf branch, and assemble the
successful envelope. -/
def inspect_pathE (env : Env) (path : String)
    (include_private include_imported : Bool) : Except Exc InspectionResult :=
  match resolve_dotted_path env path with
  | .error e => .error e
  | .ok (obj, _module_path, _attrs) =>
    let kind := classify_object env obj
      (if pyContainsDot path then (pySplitDot path).getLastD "" else path)
    if kind = .MODULE ∨ kind = .PACKAGE then
      match inspect_module env obj include_private include_imported with
      | .error e => .error e
      | .ok mi =>
        .ok { target := path, resolved_path := path, kind := kind,
              info := Info.mod mi, error := none }
    else if kind = .CLASS then
      match inspect_class env obj path include_private with
      | .error e => .error e
      | .ok ci =>
        .ok { target := path, resolved_path := path, kind := kind,
              info := Info.cls ci, error := none }
    else
      let parent_path :=
        if pyContainsDot path then
          pyJoinDot ((pySplitDot path).dropLast)
        else ""
      match _create_member_info env obj ((pySplitDot path).getLastD "")
        kind parent_path false with
      | .error e => .error e
      | .ok mi =>
        match extract_source env obj with
        | .error e => .error e
        | .ok src =>
          .ok { target := path, resolved_path := path, kind := kind,
                info := Info.member { mi with source := some src },
                error := none }

/-- inspector.inspect_path: the try body wrapped in the catch-all
`except Exception` that builds the degraded envelope. -/
def inspect_path (env : Env) (path : String)
    (include_private include_imported : Bool) : InspectionResult :=
  match inspect_pathE env path include_private include_imported with
  | .ok r => r
  | .error e =>
    { target := path
      resolved_path := path
      kind := .VARIABLE
      info := Info.member
        { name := path, kind := .VARIABLE, qualified_name := path }
      error := some e.msg }

/-! ### Helper lemmas about the sort model -/

theorem charsLe_total : ∀ a b : List Char, charsLe a b = true ∨ charsLe b a = true := by
  intro a
  induction a with
  | nil => intro b; left; rfl
  | cons x xs ih =>
    intro b
    cases b with
    | nil => right; rfl
    | cons y ys =>
      simp only [charsLe]
      rcases Nat.lt_trichotomy x.toNat y.toNat with h | h | h
      · left; simp [h]
      · rcases ih ys with h2 | h2
        · left; simp [h, h2]
        · right; simp [h.symm, h2]
      · right; simp [h]

theorem charsLe_trans : ∀ a b c : List Char,
    charsLe a b = true → charsLe b c = true → charsLe a c = true := by
  intro a
  induction a with
  | nil => intro b c _ _; rfl
  | cons x xs ih =>
    intro b c hab hbc
    cases b with
    | nil => simp [charsLe] at hab
    | cons y ys =>
      cases c with
      | nil => simp [charsLe] at hbc
      | cons z zs =>
        simp only [charsLe] at hab hbc ⊢
        by_cases hxy : x.toNat < y.toNat
        · have hzy : ¬ z.toNat < y.toNat := by
            intro hc
            rw [if_neg (by omega), if_pos hc] at hbc
            exact Bool.false_ne_true hbc
          rw [if_pos (by omega)]
        · by_cases hyx : y.toNat < x.toNat
          · rw [if_neg hxy, if_pos hyx] at hab
            exact absurd hab Bool.false_ne_true
          · rw [if_neg hxy, if_neg hyx] at hab
            by_cases hyz : y.toNat < z.toNat
            · rw [if_pos (by omega)]
            · by_cases hzy : z.toNat < y.toNat
              · rw [if_neg hyz, if_pos hzy] at hbc
                exact absurd hbc Bool.false_ne_true
              · rw [if_neg hyz, if_neg hzy] at hbc
                rw [if_neg (by omega), if_neg (by omega)]
                exact ih ys zs hab hbc

theorem pyStrLe_total (a b : String) : pyStrLe a b = true ∨ pyStrLe b a = true :=
  charsLe_total a.data b.data

theorem pyStrLe_trans (a b c : String) :
    pyStrLe a b = true → pyStrLe b c = true → pyStrLe a c = true :=
  charsLe_trans a.data b.data c.data

theorem mem_pyInsert (le : α → α → Bool) (x : α) :
    ∀ (l : List α) (a : α), a ∈ pyInsert le x l ↔ a = x ∨ a ∈ l := by
  intro l
  induction l with
  | nil => intro a; simp [pyInsert]
  | cons y ys ih =>
    intro a
    simp only [pyInsert]
    split_ifs with h
    · simp only [List.mem_cons]
      try tauto
    · simp only [List.mem_cons, ih]
      try tauto

theorem pairwise_pyInsert (le : α → α → Bool)
    (htot : ∀ a b, le a b = true ∨ le b a = true)
    (htrans : ∀ a b c, le a b = true → le b c = true → le a c = true)
    (x : α) : ∀ l : List α, l.Pairwise (fun a b => le a b = true) →
    (pyInsert le x l).Pairwise (fun a b => le a b = true) := by
  intro l
  induction l with
  | nil => intro _; simp [pyInsert]
  | cons y ys ih =>
    intro hp
    rw [List.pairwise_cons] at hp
    obtain ⟨hy, hys⟩ := hp
    simp only [pyInsert]
    split_ifs with h
    · rw [List.pairwise_cons]
      refine ⟨?_, List.Pairwise.cons hy hys⟩
      intro z hz
      rcases List.mem_cons.mp hz with rfl | hz2
      · exact h
      · exact htrans x y z h (hy z hz2)
    · rw [List.pairwise_cons]
      refine ⟨?_, ih hys⟩
      intro z hz
      rcases (mem_pyInsert le x ys z).mp hz with rfl | hz2
      · rcases htot z y with h2 | h2
        · exact absurd h2 (by simpa using h)
        · exact h2
      · exact hy z hz2

theorem sorted_pySorted (le : α → α → Bool)
    (htot : ∀ a b, le a b = true ∨ le b a = true)
    (htrans : ∀ a b c, le a b = true → le b c = true → le a c = true) :
    ∀ l : List α, (pySorted le l).Pairwise (fun a b => le a b = true) := by
  intro l
  induction l with
  | nil => simp [pySorted]
  | cons x xs ih => exact pairwise_pyInsert le htot htrans x _ ih

theorem mem_pySorted (le : α → α → Bool) :
    ∀ (l : List α) (a : α), a ∈ pySorted le l ↔ a ∈ l := by
  intro l
  induction l with
  | nil => intro a; simp [pySorted]
  | cons x xs ih =>
    intro a
    simp only [pySorted, mem_pyInsert, List.mem_cons, ih]

/-! ### Claim C5: classify_object precedence -/

/-- C5: classify_object is a total deterministic function from (entity,
binding name) to one of the twelve tags (it is a Lean function into
MemberKind, so totality and determinism hold by construction), applying
the stated precedence with first match winning: the CONSTANT tag is
produced exactly when every earlier check (module, class, builtin,
function, method, classmethod, staticmethod, property) fails, the name
is nonempty and fully upper-case, and the value is in the fixed scalar
set; modules win first (Package with children-path, Module otherwise);
classes next; and a callable (builtin or function) object classifies
BUILTIN or FUNCTION, never CONSTANT, regardless of its name. -/
theorem claim_C5_classify_precedence (env : Env) (o : Nat) (name : String) :
    (classify_object env o name = .CONSTANT ↔
      ((env.heap o).isModule = false ∧ (env.heap o).isClass = false ∧
       (env.heap o).isBuiltin = false ∧ (env.heap o).isFunction = false ∧
       (env.heap o).isMethod = false ∧ (env.heap o).isClassmethod = false ∧
       (env.heap o).isStaticmethod = false ∧ (env.heap o).isProperty = false ∧
       name ≠ "" ∧ pyIsUpper name = true ∧ (env.heap o).isScalar = true))
    ∧ ((env.heap o).isModule = true →
        classify_object env o name =
          (if (env.heap o).hasPath then .PACKAGE else .MODULE))
    ∧ ((env.heap o).isModule = false → (env.heap o).isClass = true →
        classify_object env o name = .CLASS)
    ∧ ((env.heap o).isModule = false → (env.heap o).isClass = false →
        ((env.heap o).isBuiltin = true ∨ (env.heap o).isFunction = true) →
        ((classify_object env o name = .BUILTIN ∨
          classify_object env o name = .FUNCTION) ∧
         classify_object env o name ≠ .CONSTANT)) := by
  unfold classify_object
  cases hM : (env.heap o).isModule <;>
    cases hHP : (env.heap o).hasPath <;>
    cases hC : (env.heap o).isClass <;>
    cases hB : (env.heap o).isBuiltin <;>
    cases hF : (env.heap o).isFunction <;>
    cases hMe : (env.heap o).isMethod <;>
    cases hCm : (env.heap o).isClassmethod <;>
    cases hSm : (env.heap o).isStaticmethod <;>
    cases hP : (env.heap o).isProperty <;>
    cases hS : (env.heap o).isScalar <;>
    simp [hM, hHP, hC, hB, hF, hMe, hCm, hSm, hP, hS]

/-- Witness for C5: a plain-callable fixture with the deliberately
ambiguous fully upper-case name "FOO" classifies as Builtin/Function
and never as Constant. -/
def envC5 : Env :=
  { heap := fun _ => { isFunction := true, isCallable := true, isScalar := true }
    loadModule := fun _ => .error (.importError "")
    getAttrib := fun _ _ => .error (.attributeError "") }

theorem claim_C5_witness :
    (classify_object envC5 0 "FOO" = .BUILTIN ∨
     classify_object envC5 0 "FOO" = .FUNCTION) ∧
    classify_object envC5 0 "FOO" ≠ .CONSTANT :=
  (claim_C5_classify_precedence envC5 0 "FOO").2.2.2 (by rfl) (by rfl)
    (Or.inr (by rfl))

/-! ### Claim C3: resolve_dotted_path scan order -/

/-- An Except value whose failure, if any, the resolver's two except
clauses (ImportError, AttributeError) would catch. -/
def benignExc : Except Exc α → Prop
  | .ok _ => True
  | .error e => e.caughtByResolve = true

/-- The reflection-provider contract assumed by the resolver: module
loading answers namespace-or-not-found and attribute lookup answers
value-or-not-found, i.e. their failures are ImportError or
AttributeError (an exception of any other class would propagate out of
resolve_dotted_path uncaught). -/
def benignEnv (env : Env) : Prop :=
  (∀ s, benignExc (env.loadModule s)) ∧ (∀ o a, benignExc (env.getAttrib o a))

theorem benign_traverseAttrs (env : Env) (hb : benignEnv env) :
    ∀ (attrs : List String) (o : Nat), benignExc (traverseAttrs env o attrs) := by
  intro attrs
  induction attrs with
  | nil => intro o; trivial
  | cons a rest ih =>
    intro o
    simp only [traverseAttrs]
    cases h : env.getAttrib o a with
    | ok o2 => exact ih o2
    | error e =>
      have := hb.2 o a
      rw [h] at this
      exact this

theorem benign_tryCandidate (env : Env) (hb : benignEnv env)
    (parts : List String) (i : Nat) : benignExc (tryCandidate env parts i) := by
  cases h : env.loadModule (pyJoinDot (parts.take i)) with
  | error e =>
    simp only [tryCandidate, h]
    have := hb.1 (pyJoinDot (parts.take i))
    rwa [h] at this
  | ok m =>
    cases h2 : traverseAttrs env m (parts.drop i) with
    | ok o =>
      simp only [tryCandidate, h, h2]
      trivial
    | error e =>
      simp only [tryCandidate, h, h2]
      have := benign_traverseAttrs env hb (parts.drop i) m
      rwa [h2] at this

theorem resolveGo_spec (env : Env) (path : String) (parts : List String)
    (hb : benignEnv env) : ∀ k : Nat,
    (∀ r, resolveGo env path parts k = .ok r →
       ∃ i, 1 ≤ i ∧ i ≤ k ∧ tryCandidate env parts i = .ok r ∧
         ∀ j, i < j → j ≤ k → ∀ r2, tryCandidate env parts j ≠ .ok r2)
    ∧ ((∀ i, 1 ≤ i → i ≤ k → ∀ r2, tryCandidate env parts i ≠ .ok r2) ↔
        resolveGo env path parts k =
          .error (.importError ("Cannot resolve path: " ++ path))) := by
  intro k
  induction k with
  | zero =>
    constructor
    · intro r h
      simp [resolveGo] at h
    · constructor
      · intro _
        rfl
      · intro _ i h1 h2
        omega
  | succ k ih =>
    have hcand := benign_tryCandidate env hb parts (k + 1)
    cases htc : tryCandidate env parts (k + 1) with
    | ok r0 =>
      constructor
      · intro r h
        simp only [resolveGo, htc] at h
        injection h with h
        refine ⟨k + 1, by omega, le_refl _, by rw [htc, h], ?_⟩
        intro j hj1 hj2
        omega
      · constructor
        · intro hall
          exact absurd htc (hall (k + 1) (by omega) (le_refl _) r0)
        · intro h
          simp only [resolveGo, htc] at h
          exact Except.noConfusion h
    | error e =>
      rw [htc] at hcand
      have hcaught : e.caughtByResolve = true := hcand
      have hdrop : resolveGo env path parts (k + 1) = resolveGo env path parts k := by
        simp only [resolveGo, htc, hcaught, if_true]
      constructor
      · intro r h
        rw [hdrop] at h
        obtain ⟨i, h1, h2, h3, h4⟩ := ih.1 r h
        refine ⟨i, h1, by omega, h3, ?_⟩
        intro j hj1 hj2 r2 hc
        rcases Nat.lt_or_ge j (k + 1) with hj | hj
        · exact h4 j hj1 (by omega) r2 hc
        · have : j = k + 1 := by omega
          rw [this, htc] at hc
          exact Except.noConfusion hc
      · rw [hdrop]
        constructor
        · intro hall
          exact ih.2.mp (fun i hi1 hi2 => hall i hi1 (by omega))
        · intro h i hi1 hi2 r2 hc
          rcases Nat.lt_or_ge i (k + 1) with hi | hi
          · exact ih.2.mpr h i hi1 (by omega) r2 hc
          · have : i = k + 1 := by omega
            rw [this, htc] at hc
            exact Except.noConfusion hc

/-- C3: under the provider contract (imports fail only as not-found,
attribute lookups only as not-found), resolve_dotted_path scans
candidate splits from the longest namespace prefix down: a returned
result is the result of the largest split index i whose import and
whole attribute suffix succeed, every larger split index having failed
(so no smaller split is ever used once a larger one succeeds); and the
function fails — with an ImportError carrying the original path — if
and only if no split index in [1, len(parts)] yields full success.  A
path with no separator has parts of length 1, so only the whole-string
split i = 1 is ever attempted. -/
theorem claim_C3_resolve_order (env : Env) (path : String) (hb : benignEnv env) :
    (∀ r, resolve_dotted_path env path = .ok r →
       ∃ i, 1 ≤ i ∧ i ≤ (pySplitDot path).length ∧
         tryCandidate env (pySplitDot path) i = .ok r ∧
         ∀ j, i < j → j ≤ (pySplitDot path).length →
           ∀ r2, tryCandidate env (pySplitDot path) j ≠ .ok r2)
    ∧ ((∀ i, 1 ≤ i → i ≤ (pySplitDot path).length →
          ∀ r2, tryCandidate env (pySplitDot path) i ≠ .ok r2) ↔
        resolve_dotted_path env path =
          .error (.importError ("Cannot resolve path: " ++ path))) :=
  resolveGo_spec env path (pySplitDot path) hb (pySplitDot path).length

/-- Witness environment for C3: nothing imports and no attribute
resolves. -/
def envW3 : Env :=
  { heap := fun _ => {}
    loadModule := fun _ => .error (.importError "no")
    getAttrib := fun _ _ => .error (.attributeError "no") }

theorem claim_C3_witness :
    resolve_dotted_path envW3 "a.b" =
      .error (.importError "Cannot resolve path: a.b") := by
  refine (claim_C3_resolve_order envW3 "a.b" ⟨fun _ => rfl, fun _ _ => rfl⟩).2.mp ?_
  intro i h1 h2 r2 hc
  have h2' : i ≤ 2 := h2
  have : i = 1 ∨ i = 2 := by omega
  rcases this with rfl | rfl
  · rw [show tryCandidate envW3 (pySplitDot "a.b") 1 =
        .error (.importError "no") from rfl] at hc
    exact Except.noConfusion hc
  · rw [show tryCandidate envW3 (pySplitDot "a.b") 2 =
        .error (.importError "no") from rfl] at hc
    exact Except.noConfusion hc

/-! ### Claim C4: inspect_path is a total error boundary -/

/-- C4: inspect_path never raises to the caller — in this embedding it
is a total function into InspectionResult by type, because every
fallible step runs inside inspect_pathE and the single catch-all
boundary handles its failure.  Whenever resolution or any subsequent
step fails with exception e, the returned envelope has kind Variable, a
minimal MemberInfo whose name and qualified_name are the raw input path
with no docstring, signature or source, and error set to the failure's
message. -/
theorem claim_C4_boundary (env : Env) (path : String) (ip ii : Bool) (e : Exc)
    (h : inspect_pathE env path ip ii = .error e) :
    inspect_path env path ip ii =
      { target := path
        resolved_path := path
        kind := .VARIABLE
        info := Info.member
          { name := path, kind := .VARIABLE, qualified_name := path,
            docstring := none, signature := none, source := none }
        error := some e.msg } := by
  simp only [inspect_path, h]

/-- Witness environment for C4: no module resolves. -/
def envW4 : Env :=
  { heap := fun _ => {}
    loadModule := fun s => .error (.importError ("No module named " ++ s))
    getAttrib := fun _ a => .error (.attributeError a) }

theorem claim_C4_witness :
    inspect_path envW4 "zzz.nonexistent.thing" false false =
      { target := "zzz.nonexistent.thing"
        resolved_path := "zzz.nonexistent.thing"
        kind := .VARIABLE
        info := Info.member
          { name := "zzz.nonexistent.thing", kind := .VARIABLE,
            qualified_name := "zzz.nonexistent.thing",
            docstring := none, signature := none, source := none }
        error := some "Cannot resolve path: zzz.nonexistent.thing" } ∧
    "Cannot resolve path: zzz.nonexistent.thing" ≠ "" :=
  ⟨claim_C4_boundary envW4 "zzz.nonexistent.thing" false false
      (.importError "Cannot resolve path: zzz.nonexistent.thing") (by rfl),
    by decide⟩

/-! ### Helper lemmas about the split/join model -/

theorem splitCharAux_ne_nil (sep : Char) : ∀ l : List Char, splitCharAux sep l ≠ [] := by
  intro l
  cases l with
  | nil => simp [splitCharAux]
  | cons c cs =>
    simp only [splitCharAux]
    cases h : splitCharAux sep cs with
    | nil => simp
    | cons g gs => split_ifs <;> simp

theorem joinDot_splitCharAux : ∀ l : List Char,
    (pyJoinDot ((splitCharAux '.' l).map (fun g => String.mk g))).data = l := by
  intro l
  induction l with
  | nil => rfl
  | cons c cs ih =>
    cases hg : splitCharAux '.' cs with
    | nil => exact absurd hg (splitCharAux_ne_nil '.' cs)
    | cons g tl =>
      rw [hg] at ih
      simp only [splitCharAux, hg]
      by_cases hc : c = '.'
      · subst hc
        rw [if_pos rfl]
        simp only [List.map_cons]
        show (String.mk [] ++ "." ++
          pyJoinDot (String.mk g :: tl.map (fun g => String.mk g))).data = '.' :: cs
        rw [String.data_append, String.data_append]
        simp only [List.map_cons] at ih
        rw [ih]
        rfl
      · rw [if_neg hc]
        simp only [List.map_cons] at ih ⊢
        cases tl with
        | nil =>
          simp only [List.map_nil] at ih ⊢
          show (String.mk (c :: g)).data = c :: cs
          rw [show (pyJoinDot [String.mk g]).data = (String.mk g).data from rfl] at ih
          rw [show (String.mk (c :: g)).data = c :: (String.mk g).data from rfl, ih]
        | cons t ts =>
          simp only [List.map_cons] at ih ⊢
          show (String.mk (c :: g) ++ "." ++
            pyJoinDot (String.mk t :: ts.map (fun g => String.mk g))).data = c :: cs
          have ih2 : (String.mk g ++ "." ++
              pyJoinDot (String.mk t :: ts.map (fun g => String.mk g))).data = cs := ih
          rw [String.data_append, String.data_append] at ih2
          rw [String.data_append, String.data_append]
          rw [show (String.mk (c :: g)).data = c :: (String.mk g).data from rfl]
          simp only [List.cons_append]
          rw [ih2]

/-- ".".join is a left inverse of path.split("."). -/
theorem pyJoinDot_pySplitDot (s : String) : pyJoinDot (pySplitDot s) = s := by
  apply String.ext
  exact joinDot_splitCharAux s.data

theorem splitCharAux_length_ge_two : ∀ l : List Char, l.contains '.' = true →
    2 ≤ (splitCharAux '.' l).length := by
  intro l
  induction l with
  | nil => intro h; simp at h
  | cons c cs ih =>
    intro h
    cases hg : splitCharAux '.' cs with
    | nil => exact absurd hg (splitCharAux_ne_nil '.' cs)
    | cons g tl =>
      simp only [splitCharAux, hg]
      by_cases hc : c = '.'
      · subst hc
        rw [if_pos rfl]
        simp
      · rw [if_neg hc]
        have h2 : cs.contains '.' = true := by
          rw [List.contains_cons] at h
          rcases Bool.or_eq_true_iff.mp h with h3 | h3
          · exact absurd (eq_of_beq h3).symm hc
          · exact h3
        have := ih h2
        rw [hg] at this
        simpa using this

/-- A path containing a separator splits into at least two parts. -/
theorem pySplitDot_length_ge_two (s : String) (h : pyContainsDot s = true) :
    2 ≤ (pySplitDot s).length := by
  have := splitCharAux_length_ge_two s.data h
  simpa [pySplitDot] using this

theorem getLastD_cons_of_ne_nil (a : String) (t : List String) (h : t ≠ []) :
    (a :: t).getLastD "" = t.getLastD "" := by
  cases t with
  | nil => exact absurd rfl h
  | cons b l =>
    rw [List.getLastD_eq_getLast?, List.getLastD_eq_getLast?]
    rfl

theorem pyJoinDot_dropLast : ∀ parts : List String, 2 ≤ parts.length →
    pyJoinDot parts.dropLast ++ "." ++ parts.getLastD "" = pyJoinDot parts := by
  intro parts
  induction parts with
  | nil => intro h; simp at h
  | cons a rest ih =>
    intro h
    cases rest with
    | nil => simp at h
    | cons b rs =>
      cases rs with
      | nil => rfl
      | cons c rs2 =>
        have ih2 := ih (by simp)
        rw [List.dropLast_cons₂]
        rw [getLastD_cons_of_ne_nil a (b :: c :: rs2) (by simp)]
        show (a ++ "." ++ pyJoinDot ((b :: c :: rs2).dropLast)) ++ "." ++
          (b :: c :: rs2).getLastD "" = a ++ "." ++ pyJoinDot (b :: c :: rs2)
        rw [String.append_assoc, String.append_assoc, ← String.append_assoc
          (pyJoinDot ((b :: c :: rs2).dropLast)), ih2]

/-! ### Shape lemmas for successful inspections -/

theorem _create_member_info_ok (env : Env) (o : Nat) (name : String)
    (kind : MemberKind) (pp : String) (imp : Bool) (mi : MemberInfo)
    (h : _create_member_info env o name kind pp imp = .ok mi) :
    mi.name = name ∧ mi.kind = kind ∧ mi.qualified_name = pp ++ "." ++ name ∧
    mi.is_imported = imp ∧ mi.source = none ∧ mi.value_repr = none := by
  unfold _create_member_info at h
  dsimp only at h
  cases hs : (if (env.heap o).isCallable then extract_signature env o else .ok none) with
  | error e =>
    rw [hs] at h
    exact Except.noConfusion h
  | ok sig =>
    rw [hs] at h
    injection h with h
    subst h
    exact ⟨rfl, rfl, rfl, rfl, rfl, rfl⟩

theorem inspect_module_ok (env : Env) (m : Nat) (ip ii : Bool) (mi : ModuleInfo)
    (h : inspect_module env m ip ii = .ok mi) :
    mi.qualified_name = (env.heap m).moduleName ∧
    mi.kind = (if (discoverSubmodules env m).isEmpty then MemberKind.MODULE
               else MemberKind.PACKAGE) ∧
    mi.is_package = (!(discoverSubmodules env m).isEmpty || (env.heap m).hasPath) ∧
    mi.submodules = pySorted pyStrLe (discoverSubmodules env m) ∧
    ∃ cs fs ks vs,
      moduleScan env (env.heap m).moduleName ip ii (env.heap m).members =
        .ok (cs, fs, ks, vs) ∧
      mi.classes = sortByNameC cs ∧ mi.functions = sortByName fs ∧
      mi.constants = sortByName ks ∧ mi.vars = sortByName vs := by
  unfold inspect_module at h
  dsimp only at h
  cases hs : moduleScan env (env.heap m).moduleName ip ii (env.heap m).members with
  | error e =>
    rw [hs] at h
    exact Except.noConfusion h
  | ok q =>
    obtain ⟨cs, fs, ks, vs⟩ := q
    rw [hs] at h
    injection h with h
    subst h
    exact ⟨rfl, rfl, rfl, rfl, cs, fs, ks, vs, rfl, rfl, rfl, rfl, rfl⟩

theorem inspect_class_ok (env : Env) (cls : Nat) (qn : String) (ip : Bool)
    (ci : ClassInfo) (h : inspect_class env cls qn ip = .ok ci) :
    ci.qualified_name = qn ∧ ci.name = (env.heap cls).clsName ∧
    ci.bases = ((env.heap cls).clsBases.filter (fun b => !b.isRoot)).map
      (fun b => b.name) ∧
    ci.mro = (((env.heap cls).clsMro.drop 1).dropLast).map (fun c => c.name) ∧
    ∃ ms cms sms ps cvs,
      classScan env qn ip (env.heap cls).classAttrs = .ok (ms, cms, sms, ps, cvs) ∧
      ci.methods = sortByName ms ∧ ci.class_methods = sortByName cms ∧
      ci.static_methods = sortByName sms ∧ ci.properties = sortByName ps ∧
      ci.class_variables = sortByName cvs := by
  unfold inspect_class at h
  dsimp only at h
  cases hs : classScan env qn ip (env.heap cls).classAttrs with
  | error e =>
    rw [hs] at h
    exact Except.noConfusion h
  | ok q =>
    obtain ⟨ms, cms, sms, ps, cvs⟩ := q
    rw [hs] at h
    cases hsig : extract_signature env cls with
    | error e =>
      rw [hsig] at h
      exact Except.noConfusion h
    | ok sig =>
      rw [hsig] at h
      injection h with h
      subst h
      exact ⟨rfl, rfl, rfl, rfl, ms, cms, sms, ps, cvs, rfl, rfl, rfl, rfl, rfl, rfl⟩

/-! ### Claim C2: resolved_path / qualified_name vs the input path -/

/-- Counterexample environment for C2: importing "os.path" succeeds and
yields a module whose recorded __name__ is "posixpath" — exactly the
standard library's aliasing of os.path. -/
def envC2 : Env :=
  { heap := fun n =>
      if n = 0 then { isModule := true, moduleName := "posixpath" } else {}
    loadModule := fun s =>
      if s = "os.path" then .ok 0 else .error (.importError "nope")
    getAttrib := fun _ _ => .error (.attributeError "no attr") }

/-- C2 counterexample: the path "os.path" resolves successfully
(error = none) and resolved_path echoes the input, but the nested info
record's qualified_name is the module's own recorded name "posixpath",
not the input path — refuting the claim that info.qualified_name equals
the input exactly when the resolved entity is a module or package. -/
theorem claim_C2_counterexample :
    (inspect_path envC2 "os.path" false false).error = none ∧
    (inspect_path envC2 "os.path" false false).resolved_path = "os.path" ∧
    Info.qn (inspect_path envC2 "os.path" false false).info = "posixpath" ∧
    ("posixpath" : String) ≠ "os.path" := by
  exact ⟨rfl, rfl, rfl, by decide⟩

/-- C2 amended: for every environment, input path and flag pair, the
envelope's target and resolved_path always equal the input path exactly;
the info record's qualified_name equals the input path when the resolved
entity is a class, when the envelope is the degraded error envelope, and
when the entity is a non-namespace leaf reached through a dotted path;
but when the resolved entity is a module or package, info.qualified_name
is the module's own recorded __name__, which may differ from the input
path. -/
theorem claim_C2_amended (env : Env) (path : String) (ip ii : Bool) :
    ((inspect_path env path ip ii).target = path ∧
     (inspect_path env path ip ii).resolved_path = path)
    ∧ ((inspect_path env path ip ii).kind = .CLASS →
        Info.qn (inspect_path env path ip ii).info = path)
    ∧ (∀ e, (inspect_path env path ip ii).error = some e →
        Info.qn (inspect_path env path ip ii).info = path)
    ∧ ((inspect_path env path ip ii).error = none →
        (inspect_path env path ip ii).kind ≠ .MODULE →
        (inspect_path env path ip ii).kind ≠ .PACKAGE →
        (inspect_path env path ip ii).kind ≠ .CLASS →
        pyContainsDot path = true →
        Info.qn (inspect_path env path ip ii).info = path)
    ∧ (∀ o mp ats mi, resolve_dotted_path env path = .ok (o, mp, ats) →
        inspect_module env o ip ii = .ok mi →
        ((inspect_path env path ip ii).kind = .MODULE ∨
         (inspect_path env path ip ii).kind = .PACKAGE) →
        (inspect_path env path ip ii).error = none →
        Info.qn (inspect_path env path ip ii).info = (env.heap o).moduleName) := by
  cases hE : inspect_pathE env path ip ii with
  | error e =>
    have hP : inspect_path env path ip ii =
        { target := path, resolved_path := path, kind := .VARIABLE,
          info := Info.member
            { name := path, kind := .VARIABLE, qualified_name := path },
          error := some e.msg } := by
      simp only [inspect_path, hE]
    rw [hP]
    refine ⟨⟨rfl, rfl⟩, ?_, ?_, ?_, ?_⟩
    · intro h
      simp at h
    · intro e2 _
      rfl
    · intro hnone
      exact Option.noConfusion hnone
    · intro o mp ats mi _ _ _ hnone
      exact Option.noConfusion hnone
  | ok r =>
    have hP : inspect_path env path ip ii = r := by
      simp only [inspect_path, hE]
    rw [hP]
    unfold inspect_pathE at hE
    cases hres : resolve_dotted_path env path with
    | error e =>
      rw [hres] at hE
      exact Except.noConfusion hE
    | ok t =>
      obtain ⟨o, mp, ats⟩ := t
      rw [hres] at hE
      dsimp only at hE
      by_cases hmod : classify_object env o
          (if pyContainsDot path then (pySplitDot path).getLastD "" else path) =
            MemberKind.MODULE ∨
          classify_object env o
            (if pyContainsDot path then (pySplitDot path).getLastD "" else path) =
            MemberKind.PACKAGE
      · rw [if_pos hmod] at hE
        cases hmi : inspect_module env o ip ii with
        | error e =>
          rw [hmi] at hE
          exact Except.noConfusion hE
        | ok mi =>
          rw [hmi] at hE
          injection hE with hE
          subst hE
          refine ⟨⟨rfl, rfl⟩, ?_, ?_, ?_, ?_⟩
          · intro h
            rcases hmod with h2 | h2 <;> rw [h2] at h <;> simp at h
          · intro e2 h2
            exact Option.noConfusion h2
          · intro _ hM hP2 _ _
            rcases hmod with h2 | h2
            · exact absurd h2 hM
            · exact absurd h2 hP2
          · intro o2 mp2 ats2 mi2 hres2 hmi2 _ _
            injection hres2 with hres2
            injection hres2 with h1 h23
            subst h1
            exact (inspect_module_ok env o ip ii mi hmi).1
      · rw [if_neg hmod] at hE
        by_cases hcls : classify_object env o
            (if pyContainsDot path then (pySplitDot path).getLastD "" else path) =
              MemberKind.CLASS
        · rw [if_pos hcls] at hE
          cases hci : inspect_class env o path ip with
          | error e =>
            rw [hci] at hE
            exact Except.noConfusion hE
          | ok ci =>
            rw [hci] at hE
            injection hE with hE
            subst hE
            refine ⟨⟨rfl, rfl⟩, ?_, ?_, ?_, ?_⟩
            · intro _
              exact (inspect_class_ok env o path ip ci hci).1
            · intro e2 h2
              exact Option.noConfusion h2
            · intro _ _ _ hC _
              exact absurd hcls hC
            · intro o2 mp2 ats2 mi2 _ _ hmod2 _
              exact absurd hmod2 hmod
        · rw [if_neg hcls] at hE
          cases hcm : _create_member_info env o ((pySplitDot path).getLastD "")
              (classify_object env o
                (if pyContainsDot path then (pySplitDot path).getLastD "" else path))
              (if pyContainsDot path then pyJoinDot ((pySplitDot path).dropLast)
               else "") false with
          | error e =>
            rw [hcm] at hE
            exact Except.noConfusion hE
          | ok mi0 =>
            rw [hcm] at hE
            cases hsrc : extract_source env o with
            | error e =>
              rw [hsrc] at hE
              exact Except.noConfusion hE
            | ok src =>
              rw [hsrc] at hE
              injection hE with hE
              subst hE
              refine ⟨⟨rfl, rfl⟩, ?_, ?_, ?_, ?_⟩
              · intro h
                exact absurd h hcls
              · intro e2 h2
                exact Option.noConfusion h2
              · intro _ _ _ _ hdot
                have h6 := (_create_member_info_ok env o _ _ _ false mi0 hcm).2.2.1
                rw [if_pos hdot] at h6
                show ({ mi0 with source := some src } : MemberInfo).qualified_name = path
                rw [show ({ mi0 with source := some src } : MemberInfo).qualified_name =
                      mi0.qualified_name from rfl, h6]
                rw [pyJoinDot_dropLast (pySplitDot path)
                      (pySplitDot_length_ge_two path hdot), pyJoinDot_pySplitDot]
              · intro o2 mp2 ats2 mi2 _ _ hmod2 _
                exact absurd hmod2 hmod

/-- Witness environment for C2 amended: "m" imports, its attribute "C"
is a class. -/
def envC2W : Env :=
  { heap := fun n =>
      if n = 0 then { isModule := true, moduleName := "m" }
      else if n = 1 then { isClass := true, clsName := "C" }
      else {}
    loadModule := fun s => if s = "m" then .ok 0 else .error (.importError "nope")
    getAttrib := fun o a =>
      if o = 0 && a = "C" then .ok 1 else .error (.attributeError a) }

theorem claim_C2_witness :
    Info.qn (inspect_path envC2W "m.C" false false).info = "m.C" :=
  (claim_C2_amended envC2W "m.C" false false).2.1 (by rfl)

/-! ### Claim C6: extract_signature -/

/-- The SignatureInfo that extract_signature builds from a successful
provider signature query (stated separately for reuse in theorems;
definitionally the success branch of extract_signature). -/
def buildSignatureInfo (raw : RawSignature) : SignatureInfo :=
  { parameters := raw.params.map (fun p =>
      { name := p.name
        kind := kind_map p.kind
        annot := p.annot
        default := p.defaultRepr
        has_default := p.defaultRepr.isSome })
    return_annot := raw.returnAnnot
    raw_signature := some raw.rawString }

/-- C6: extract_signature maps the provider's ordered parameter list to
a SignatureInfo that preserves declaration order, translating each
provider parameter kind through the five-way kind map and setting
has_default exactly when the provider reports a default; and when the
provider cannot introspect the callable (its signature query fails with
ValueError or TypeError), it returns absent (None) — never an empty
SignatureInfo. -/
theorem claim_C6_signature (env : Env) (o : Nat) :
    (∀ raw s, (env.heap o).sigResult = .ok raw →
       extract_signature env o = .ok (some s) →
       (s.parameters.map (fun p => p.kind) =
          raw.params.map (fun p => kind_map p.kind) ∧
        s.parameters.map (fun p => p.name) = raw.params.map (fun p => p.name) ∧
        s.parameters.map (fun p => p.has_default) =
          raw.params.map (fun p => p.defaultRepr.isSome) ∧
        s.parameters.map (fun p => p.default) =
          raw.params.map (fun p => p.defaultRepr)))
    ∧ (∀ raw, (env.heap o).sigResult = .ok raw →
        extract_signature env o = .ok (some (buildSignatureInfo raw)))
    ∧ (∀ m, (env.heap o).sigResult = .error (.valueError m) →
        extract_signature env o = .ok none)
    ∧ (∀ m, (env.heap o).sigResult = .error (.typeError m) →
        extract_signature env o = .ok none) := by
  refine ⟨?_, ?_, ?_, ?_⟩
  · intro raw s hraw hex
    unfold extract_signature at hex
    rw [hraw] at hex
    injection hex with hex
    injection hex with hex
    subst hex
    refine ⟨?_, ?_, ?_, ?_⟩ <;> simp [List.map_map]
  · intro raw hraw
    unfold extract_signature
    rw [hraw]
    rfl
  · intro m hm
    unfold extract_signature
    rw [hm]
  · intro m hm
    unfold extract_signature
    rw [hm]

/-- The provider descriptor of a callable declared
(a, b=1, *args, c, **kwargs). -/
def rawC6 : RawSignature :=
  { params := [
      { name := "a", kind := .POSITIONAL_OR_KEYWORD },
      { name := "b", kind := .POSITIONAL_OR_KEYWORD, defaultRepr := some "1" },
      { name := "args", kind := .VAR_POSITIONAL },
      { name := "c", kind := .KEYWORD_ONLY },
      { name := "kwargs", kind := .VAR_KEYWORD }]
    returnAnnot := none
    rawString := "(a, b=1, *args, c, **kwargs)" }

/-- Witness environment for C6. -/
def envC6 : Env :=
  { heap := fun _ => { isCallable := true, sigResult := .ok rawC6 }
    loadModule := fun _ => .error (.importError "")
    getAttrib := fun _ _ => .error (.attributeError "") }

theorem claim_C6_witness :
    extract_signature envC6 0 = .ok (some
      { parameters := [
          { name := "a", kind := .POSITIONAL_OR_KEYWORD, annot := none,
            default := none, has_default := false },
          { name := "b", kind := .POSITIONAL_OR_KEYWORD, annot := none,
            default := some "1", has_default := true },
          { name := "args", kind := .VAR_POSITIONAL, annot := none,
            default := none, has_default := false },
          { name := "c", kind := .KEYWORD_ONLY, annot := none,
            default := none, has_default := false },
          { name := "kwargs", kind := .VAR_KEYWORD, annot := none,
            default := none, has_default := false }]
        return_annot := none
        raw_signature := some "(a, b=1, *args, c, **kwargs)" }) := by
  have h := (claim_C6_signature envC6 0).2.1 rawC6 (by rfl)
  exact h

/-! ### Claim C7: inspect_class bases and mro -/

/-- C7 counterexample environment: a class named "C" whose single direct
base is a distinct, non-root class that also happens to be named "C"
(legal in Python: `class C: pass` then `X = C; class C(X): pass`), with
provider ancestor order [C, C, object]. -/
def envC7 : Env :=
  { heap := fun _ =>
      { isClass := true
        clsName := "C"
        clsBases := [{ name := "C", isRoot := false }]
        clsMro := [{ name := "C", isRoot := false },
                   { name := "C", isRoot := false },
                   { name := "object", isRoot := true }] }
    loadModule := fun _ => .error (.importError "")
    getAttrib := fun _ _ => .error (.attributeError "") }

/-- C7 counterexample: the inspected class is named "C" and both its
bases list and its mro list contain "C" — the class's own name — because
the source excludes the root by identity and the class itself by
position only, never by name.  This refutes the clause "neither list
ever contains the class's own name". -/
theorem claim_C7_counterexample :
    (inspect_class envC7 0 "m.C" false).map (fun c => (c.name, c.bases, c.mro)) =
      .ok ("C", ["C"], ["C"]) := by rfl

/-- C7 amended: for every successfully inspected class, bases is exactly
the names of the direct bases excluding — by identity — the universal
root; and provided the provider's ancestor order starts with the class
itself and ends with the root (the runtime's guarantee), mro is exactly
the names of the strictly intermediate ancestors (ancestor order minus
its first and last entries).  Exclusion is by identity and position, so
a distinct base sharing the class's or the root's name can still appear
by name. -/
theorem claim_C7_bases_mro (env : Env) (cls : Nat) (qn : String) (ip : Bool)
    (ci : ClassInfo) (h : inspect_class env cls qn ip = .ok ci)
    (x z : BaseRef) (mid : List BaseRef)
    (hmro : (env.heap cls).clsMro = x :: (mid ++ [z])) :
    ci.bases = ((env.heap cls).clsBases.filter (fun b => !b.isRoot)).map
      (fun b => b.name) ∧
    ci.mro = mid.map (fun b => b.name) := by
  obtain ⟨_, _, hb, hm, _⟩ := inspect_class_ok env cls qn ip ci h
  refine ⟨hb, ?_⟩
  rw [hm, hmro]
  simp [List.dropLast_concat]

/-- Witness environment for C7 amended: class C with direct base B and
ancestor order [C, B, object]. -/
def envC7W : Env :=
  { heap := fun _ =>
      { isClass := true
        clsName := "C"
        clsBases := [{ name := "B", isRoot := false }]
        clsMro := [{ name := "C", isRoot := false },
                   { name := "B", isRoot := false },
                   { name := "object", isRoot := true }] }
    loadModule := fun _ => .error (.importError "")
    getAttrib := fun _ _ => .error (.attributeError "") }

/-- The ClassInfo that inspecting envC7W's class yields. -/
def ciC7W : ClassInfo :=
  { name := "C"
    kind := .CLASS
    qualified_name := "m.C"
    signature := none
    bases := ["B"]
    mro := ["B"] }

theorem claim_C7_witness :
    ciC7W.bases = ["B"] ∧ ciC7W.mro = ["B"] :=
  claim_C7_bases_mro envC7W 0 "m.C" false ciC7W (by rfl)
    { name := "C", isRoot := false } { name := "object", isRoot := true }
    [{ name := "B", isRoot := false }] (by rfl)

/-! ### Claim C8: every bucket sorted ascending by name -/

/-- Ascending-by-name, the order Python's sorted(key=name) guarantees. -/
def sortedByName (l : List MemberInfo) : Prop :=
  l.Pairwise (fun a b => pyStrLe a.name b.name = true)

/-- Ascending-by-name over ClassInfo records. -/
def sortedByNameC (l : List ClassInfo) : Prop :=
  l.Pairwise (fun a b => pyStrLe a.name b.name = true)

theorem sortedByName_pySorted (l : List MemberInfo) :
    sortedByName (sortByName l) := by
  unfold sortedByName sortByName
  exact sorted_pySorted (fun a b => pyStrLe a.name b.name)
    (fun a b => pyStrLe_total a.name b.name)
    (fun a b c hab hbc => pyStrLe_trans a.name b.name c.name hab hbc) l

theorem sortedByNameC_pySorted (l : List ClassInfo) :
    sortedByNameC (sortByNameC l) := by
  unfold sortedByNameC sortByNameC
  exact sorted_pySorted (fun a b => pyStrLe a.name b.name)
    (fun a b => pyStrLe_total a.name b.name)
    (fun a b c hab hbc => pyStrLe_trans a.name b.name c.name hab hbc) l

/-- C8: every list bucket of every successfully returned record is
sorted ascending by name — submodules, classes, functions, constants and
variables of a ModuleInfo, and the five attribute buckets of a
ClassInfo. -/
theorem claim_C8_sorted (env : Env) :
    (∀ m ip ii mi, inspect_module env m ip ii = .ok mi →
       (mi.submodules.Pairwise (fun a b => pyStrLe a b = true) ∧
        sortedByNameC mi.classes ∧ sortedByName mi.functions ∧
        sortedByName mi.constants ∧ sortedByName mi.vars))
    ∧ (∀ cls qn ip ci, inspect_class env cls qn ip = .ok ci →
       (sortedByName ci.methods ∧ sortedByName ci.class_methods ∧
        sortedByName ci.static_methods ∧ sortedByName ci.properties ∧
        sortedByName ci.class_variables)) := by
  constructor
  · intro m ip ii mi h
    obtain ⟨_, _, _, hsub, cs, fs, ks, vs, _, hc, hf, hk, hv⟩ :=
      inspect_module_ok env m ip ii mi h
    refine ⟨?_, ?_, ?_, ?_, ?_⟩
    · rw [hsub]
      exact sorted_pySorted pyStrLe pyStrLe_total pyStrLe_trans _
    · rw [hc]
      exact sortedByNameC_pySorted cs
    · rw [hf]
      exact sortedByName_pySorted fs
    · rw [hk]
      exact sortedByName_pySorted ks
    · rw [hv]
      exact sortedByName_pySorted vs
  · intro cls qn ip ci h
    obtain ⟨_, _, _, _, ms, cms, sms, ps, cvs, _, h1, h2, h3, h4, h5⟩ :=
      inspect_class_ok env cls qn ip ci h
    exact ⟨h1 ▸ sortedByName_pySorted ms, h2 ▸ sortedByName_pySorted cms,
           h3 ▸ sortedByName_pySorted sms, h4 ▸ sortedByName_pySorted ps,
           h5 ▸ sortedByName_pySorted cvs⟩

/-- Witness environment for C8: module "m" binds functions zf and af (in
that enumeration order) and class C whose provider attribute table lists
methods zm then am. -/
def envC8 : Env :=
  { heap := fun n =>
      if n = 0 then
        { isModule := true
          moduleName := "m"
          members := [("zf", 1), ("af", 2), ("C", 3)] }
      else if n = 1 then { isFunction := true, isCallable := true }
      else if n = 2 then { isFunction := true, isCallable := true }
      else if n = 3 then
        { isClass := true
          clsName := "C"
          clsMro := [{ name := "C", isRoot := false },
                     { name := "object", isRoot := true }]
          classAttrs := [{ name := "zm", kind := "method", definingIsSelf := true, obj := 4 },
                         { name := "am", kind := "method", definingIsSelf := true, obj := 5 }] }
      else { isCallable := true }
    loadModule := fun s => if s = "m" then .ok 0 else .error (.importError "nope")
    getAttrib := fun _ _ => .error (.attributeError "no attr") }

/-- The MemberInfo records of envC8's class methods. -/
def amC8 : MemberInfo := { name := "am", kind := .METHOD, qualified_name := "m.C.am" }

/-- See amC8. -/
def zmC8 : MemberInfo := { name := "zm", kind := .METHOD, qualified_name := "m.C.zm" }

/-- The ClassInfo record envC8's class inspection yields: methods sorted
ascending. -/
def ciC8 : ClassInfo :=
  { name := "C"
    kind := .CLASS
    qualified_name := "m.C"
    signature := none
    bases := []
    mro := []
    methods := [amC8, zmC8] }

/-- The ModuleInfo record envC8's module inspection yields: functions
sorted ascending, classes list holding C. -/
def miC8 : ModuleInfo :=
  { name := "m"
    kind := .MODULE
    qualified_name := "m"
    functions := [{ name := "af", kind := .FUNCTION, qualified_name := "m.af" },
                  { name := "zf", kind := .FUNCTION, qualified_name := "m.zf" }]
    classes := [ciC8] }

theorem claim_C8_witness :
    (miC8.submodules.Pairwise (fun a b => pyStrLe a b = true) ∧
     sortedByNameC miC8.classes ∧ sortedByName miC8.functions ∧
     sortedByName miC8.constants ∧ sortedByName miC8.vars) ∧
    (sortedByName ciC8.methods ∧ sortedByName ciC8.class_methods ∧
     sortedByName ciC8.static_methods ∧ sortedByName ciC8.properties ∧
     sortedByName ciC8.class_variables) :=
  ⟨(claim_C8_sorted envC8).1 0 false false miC8 (by rfl),
   (claim_C8_sorted envC8).2 3 "m.C" false ciC8 (by rfl)⟩

/-! ### Claim C9: Package kind inside ModuleInfo vs the envelope -/

/-- C9: the kind recorded inside the ModuleInfo built by inspect_module
is Package exactly when submodule discovery found at least one
submodule, and Module otherwise, while is_package is true when either
submodules were found or the namespace has a storage path; the top-level
classification (used for the envelope kind by inspect_path) tags any
module with a storage path as Package.  Hence a package with a storage
path but no discoverable submodules gets envelope kind Package and
nested info kind Module. -/
theorem claim_C9_package_kind (env : Env) (m : Nat) (ip ii : Bool) :
    (∀ mi, inspect_module env m ip ii = .ok mi →
       ((mi.kind = .PACKAGE ↔ discoverSubmodules env m ≠ []) ∧
        (mi.kind = .MODULE ↔ discoverSubmodules env m = []) ∧
        (mi.is_package = true ↔
          (discoverSubmodules env m ≠ [] ∨ (env.heap m).hasPath = true))))
    ∧ ((env.heap m).isModule = true → (env.heap m).hasPath = true →
        ∀ name, classify_object env m name = .PACKAGE) := by
  constructor
  · intro mi h
    obtain ⟨_, hkind, hpack, _⟩ := inspect_module_ok env m ip ii mi h
    by_cases he : discoverSubmodules env m = []
    · rw [hkind, hpack]
      simp [he, List.isEmpty_iff]
    · rw [hkind, hpack]
      simp [he, List.isEmpty_iff]
  · intro h1 h2 name
    unfold classify_object
    simp [h1, h2]

/-- Witness environment for C9: a package-like module with a storage
path but an empty submodule listing. -/
def envC9 : Env :=
  { heap := fun _ =>
      { isModule := true
        hasPath := true
        moduleName := "p"
        pathListing := .ok [] }
    loadModule := fun s => if s = "p" then .ok 0 else .error (.importError "nope")
    getAttrib := fun _ _ => .error (.attributeError "no attr") }

theorem claim_C9_witness :
    classify_object envC9 0 "p" = .PACKAGE ∧
    (inspect_path envC9 "p" false false).kind = .PACKAGE ∧
    Info.infoKind (inspect_path envC9 "p" false false).info = .MODULE ∧
    (inspect_module envC9 0 false false).map (fun mi => (mi.kind, mi.is_package)) =
      .ok (.MODULE, true) :=
  ⟨(claim_C9_package_kind envC9 0 false false).2 rfl rfl "p", by rfl, by rfl, by rfl⟩

/-! ### Claim C10: members without a recorded declaring namespace -/

theorem moduleScan_cons_ok (env : Env) (mname : String) (ip ii : Bool)
    (n0 : String) (o0 : Nat) (rest : List (String × Nat))
    (cs : List ClassInfo) (fs ks vs : List MemberInfo)
    (h : moduleScan env mname ip ii ((n0, o0) :: rest) = .ok (cs, fs, ks, vs)) :
    ∃ cs2 fs2 ks2 vs2,
      moduleScan env mname ip ii rest = .ok (cs2, fs2, ks2, vs2) ∧
      (ks = ks2 ∨ ∃ x, ks = x :: ks2) ∧ (vs = vs2 ∨ ∃ x, vs = x :: vs2) := by
  cases hrest : moduleScan env mname ip ii rest with
  | error e =>
    exfalso
    simp only [moduleScan, hrest] at h
    repeat' split at h
    all_goals exact Except.noConfusion h
  | ok q =>
    obtain ⟨cs2, fs2, ks2, vs2⟩ := q
    refine ⟨cs2, fs2, ks2, vs2, rfl, ?_⟩
    simp only [moduleScan, hrest] at h
    split at h
    · injection h with h
      simp only [Prod.mk.injEq] at h
      obtain ⟨h1, h2, h3, h4⟩ := h
      exact ⟨Or.inl h3.symm, Or.inl h4.symm⟩
    · split at h
      · injection h with h
        simp only [Prod.mk.injEq] at h
        obtain ⟨h1, h2, h3, h4⟩ := h
        exact ⟨Or.inl h3.symm, Or.inl h4.symm⟩
      · split at h
        · injection h with h
          simp only [Prod.mk.injEq] at h
          obtain ⟨h1, h2, h3, h4⟩ := h
          exact ⟨Or.inl h3.symm, Or.inl h4.symm⟩
        · split at h
          · split at h
            · exact Except.noConfusion h
            · injection h with h
              simp only [Prod.mk.injEq] at h
              obtain ⟨h1, h2, h3, h4⟩ := h
              exact ⟨Or.inl h3.symm, Or.inl h4.symm⟩
          · split at h
            · split at h
              · exact Except.noConfusion h
              · injection h with h
                simp only [Prod.mk.injEq] at h
                obtain ⟨h1, h2, h3, h4⟩ := h
                exact ⟨Or.inl h3.symm, Or.inl h4.symm⟩
            · split at h
              · split at h
                · exact Except.noConfusion h
                · injection h with h
                  simp only [Prod.mk.injEq] at h
                  obtain ⟨h1, h2, h3, h4⟩ := h
                  exact ⟨Or.inr ⟨_, h3.symm⟩, Or.inl h4.symm⟩
              · split at h
                · split at h
                  · exact Except.noConfusion h
                  · injection h with h
                    simp only [Prod.mk.injEq] at h
                    obtain ⟨h1, h2, h3, h4⟩ := h
                    exact ⟨Or.inl h3.symm, Or.inr ⟨_, h4.symm⟩⟩
                · injection h with h
                  simp only [Prod.mk.injEq] at h
                  obtain ⟨h1, h2, h3, h4⟩ := h
                  exact ⟨Or.inl h3.symm, Or.inl h4.symm⟩

theorem moduleScan_retains (env : Env) (mname : String) (ip : Bool)
    (n : String) (o : Nat)
    (hdm : (env.heap o).dunderModule = none ∨ (env.heap o).dunderModule = some none)
    (hpriv : ip = true ∨ pyStartsWith n "_" = false)
    (hnotmod : (env.heap o).isModule = false) :
    ∀ (members : List (String × Nat)) (cs : List ClassInfo)
      (fs ks vs : List MemberInfo),
      moduleScan env mname ip false members = .ok (cs, fs, ks, vs) →
      (n, o) ∈ members →
      (classify_object env o n = .CONSTANT →
        ks.any (fun i => i.name == n && !i.is_imported) = true) ∧
      (classify_object env o n = .VARIABLE →
        vs.any (fun i => i.name == n && !i.is_imported) = true) := by
  intro members
  induction members with
  | nil =>
    intro cs fs ks vs _ hmem
    simp at hmem
  | cons hd rest ih =>
    obtain ⟨n0, o0⟩ := hd
    intro cs fs ks vs hscan hmem
    rcases List.mem_cons.mp hmem with heq | hmem2
    · injection heq with hn ho
      subst hn
      subst ho
      simp only [moduleScan] at hscan
      have hpf : ¬((!ip && pyStartsWith n "_") = true) := by
        rcases hpriv with rfl | hp
        · simp
        · simp [hp]
      rw [if_neg hpf] at hscan
      rw [if_neg (by simp [hnotmod])] at hscan
      have hgd : (env.heap o).dunderModule.getD none = (none : Option String) := by
        rcases hdm with h2 | h2 <;> rw [h2] <;> rfl
      rw [hgd] at hscan
      rw [if_neg (by simp)] at hscan
      constructor
      · intro hk
        rw [if_neg (by simp [hk]), if_neg (by simp [hk]), if_pos hk] at hscan
        cases hcm : _create_member_info env o n (classify_object env o n) mname false with
        | error e =>
          rw [hcm] at hscan
          exact Except.noConfusion hscan
        | ok i =>
          rw [hcm] at hscan
          cases hrest : moduleScan env mname ip false rest with
          | error e =>
            rw [hrest] at hscan
            exact Except.noConfusion hscan
          | ok q =>
            obtain ⟨cs2, fs2, ks2, vs2⟩ := q
            rw [hrest] at hscan
            injection hscan with hscan
            simp only [Prod.mk.injEq] at hscan
            obtain ⟨_, _, hks, _⟩ := hscan
            rw [← hks]
            obtain ⟨hni, _, _, himpi, _, _⟩ :=
              _create_member_info_ok env o n _ mname false i hcm
            simp [List.any_cons, hni, himpi]
      · intro hk
        rw [if_neg (by simp [hk]), if_neg (by simp [hk]), if_neg (by simp [hk]),
            if_pos hk] at hscan
        cases hcm : _create_member_info env o n (classify_object env o n) mname false with
        | error e =>
          rw [hcm] at hscan
          exact Except.noConfusion hscan
        | ok i =>
          rw [hcm] at hscan
          cases hrest : moduleScan env mname ip false rest with
          | error e =>
            rw [hrest] at hscan
            exact Except.noConfusion hscan
          | ok q =>
            obtain ⟨cs2, fs2, ks2, vs2⟩ := q
            rw [hrest] at hscan
            injection hscan with hscan
            simp only [Prod.mk.injEq] at hscan
            obtain ⟨_, _, _, hvs⟩ := hscan
            rw [← hvs]
            obtain ⟨hni, _, _, himpi, _, _⟩ :=
              _create_member_info_ok env o n _ mname false i hcm
            simp [List.any_cons, hni, himpi]
    · obtain ⟨cs2, fs2, ks2, vs2, hrest, hks, hvs⟩ :=
        moduleScan_cons_ok env mname ip false n0 o0 rest cs fs ks vs hscan
      have hih := ih cs2 fs2 ks2 vs2 hrest hmem2
      constructor
      · intro hk
        have h2 := hih.1 hk
        rcases hks with rfl | ⟨x, rfl⟩
        · exact h2
        · simp [List.any_cons, h2]
      · intro hk
        have h2 := hih.2 hk
        rcases hvs with rfl | ⟨x, rfl⟩
        · exact h2
        · simp [List.any_cons, h2]

/-- C10: during namespace enumeration, a binding whose entity has no
recorded declaring namespace (no __module__ attribute, or one set to
None — e.g. plain scalar values) is treated as not imported: with
include_imported = false it is never filtered out by the imported
filter, and the record it produces in the constants or variables bucket
carries is_imported = false (provided it passes the private filter, is
not itself a module, and the scan as a whole succeeds). -/
theorem claim_C10_unrecorded_module (env : Env) (m : Nat) (ip : Bool)
    (n : String) (o : Nat) (mi : ModuleInfo)
    (hmem : (n, o) ∈ (env.heap m).members)
    (hdm : (env.heap o).dunderModule = none ∨
           (env.heap o).dunderModule = some none)
    (hpriv : ip = true ∨ pyStartsWith n "_" = false)
    (hnotmod : (env.heap o).isModule = false)
    (h : inspect_module env m ip false = .ok mi) :
    (classify_object env o n = .CONSTANT →
       mi.constants.any (fun i => i.name == n && !i.is_imported) = true) ∧
    (classify_object env o n = .VARIABLE →
       mi.vars.any (fun i => i.name == n && !i.is_imported) = true) := by
  obtain ⟨_, _, _, _, cs, fs, ks, vs, hscan, _, _, hkc, hvc⟩ :=
    inspect_module_ok env m ip false mi h
  have hr := moduleScan_retains env (env.heap m).moduleName ip n o hdm hpriv
    hnotmod (env.heap m).members cs fs ks vs hscan hmem
  constructor
  · intro hk
    have h2 := hr.1 hk
    rw [hkc]
    rw [List.any_eq_true] at h2 ⊢
    obtain ⟨x, hx1, hx2⟩ := h2
    exact ⟨x, (mem_pySorted _ ks x).mpr hx1, hx2⟩
  · intro hk
    have h2 := hr.2 hk
    rw [hvc]
    rw [List.any_eq_true] at h2 ⊢
    obtain ⟨x, hx1, hx2⟩ := h2
    exact ⟨x, (mem_pySorted _ vs x).mpr hx1, hx2⟩

/-- Witness environment for C10: module m binds "x" to a plain scalar
with no __module__ attribute. -/
def envC10 : Env :=
  { heap := fun n =>
      if n = 0 then
        { isModule := true
          moduleName := "m"
          members := [("x", 1)] }
      else { isScalar := true }
    loadModule := fun s => if s = "m" then .ok 0 else .error (.importError "nope")
    getAttrib := fun _ _ => .error (.attributeError "no attr") }

/-- The ModuleInfo envC10's inspection yields with include_imported
false: "x" is retained in the variables bucket, not imported. -/
def miC10 : ModuleInfo :=
  { name := "m"
    kind := .MODULE
    qualified_name := "m"
    vars := [{ name := "x", kind := .VARIABLE, qualified_name := "m.x",
               value_repr := some "" }] }

theorem claim_C10_witness :
    miC10.vars.any (fun i => i.name == "x" && !i.is_imported) = true :=
  (claim_C10_unrecorded_module envC10 0 false "x" 1 miC10
      (List.mem_singleton.mpr rfl)
      (Or.inl rfl) (Or.inr rfl) rfl (by rfl)).2 (by rfl)

/-! ### Claim C1: containment of per-member extraction failures -/

/-- Whether an Except value is a success. -/
def excIsOk : Except ε α → Bool
  | .ok _ => true
  | .error _ => false

/-- Every object's signature query fails, if at all, only with the
exceptions extract_signature anticipates and absorbs (ValueError /
TypeError). -/
def benignSigEnv (env : Env) : Prop :=
  ∀ o, match (env.heap o).sigResult with
    | .ok _ => True
    | .error (.valueError _) => True
    | .error (.typeError _) => True
    | .error _ => False

theorem extract_signature_total (env : Env) (hb : benignSigEnv env) (o : Nat) :
    ∃ s, extract_signature env o = .ok s := by
  have h := hb o
  unfold extract_signature
  cases hs : (env.heap o).sigResult with
  | ok raw => exact ⟨_, rfl⟩
  | error e =>
    rw [hs] at h
    cases e with
    | valueError m => exact ⟨none, rfl⟩
    | typeError m => exact ⟨none, rfl⟩
    | importError m => exact h.elim
    | attributeError m => exact h.elim
    | osError m => exact h.elim
    | other m => exact h.elim

theorem _create_member_info_total (env : Env) (hb : benignSigEnv env)
    (o : Nat) (name : String) (kind : MemberKind) (pp : String) (imp : Bool) :
    ∃ mi, _create_member_info env o name kind pp imp = .ok mi := by
  unfold _create_member_info
  dsimp only
  by_cases hc : (env.heap o).isCallable = true
  · rw [if_pos hc]
    obtain ⟨s, hs⟩ := extract_signature_total env hb o
    rw [hs]
    exact ⟨_, rfl⟩
  · rw [if_neg hc]
    exact ⟨_, rfl⟩

theorem classScan_total (env : Env) (hb : benignSigEnv env)
    (qn : String) (ip : Bool) :
    ∀ attrs, ∃ q, classScan env qn ip attrs = .ok q := by
  intro attrs
  induction attrs with
  | nil => exact ⟨_, rfl⟩
  | cons attr rest ih =>
    simp only [classScan]
    split
    · exact ih
    · obtain ⟨i, hi⟩ := _create_member_info_total env hb attr.obj attr.name
        (member_kind_map attr.kind) qn (!attr.definingIsSelf)
      rw [hi]
      obtain ⟨q, hq⟩ := ih
      obtain ⟨ms, cms, sms, ps, cvs⟩ := q
      rw [hq]
      dsimp only
      repeat' split
      all_goals exact ⟨_, rfl⟩

theorem inspect_class_total (env : Env) (hb : benignSigEnv env)
    (cls : Nat) (qn : String) (ip : Bool) :
    ∃ ci, inspect_class env cls qn ip = .ok ci := by
  unfold inspect_class
  dsimp only
  obtain ⟨q, hq⟩ := classScan_total env hb qn ip (env.heap cls).classAttrs
  obtain ⟨ms, cms, sms, ps, cvs⟩ := q
  rw [hq]
  obtain ⟨sg, hsg⟩ := extract_signature_total env hb cls
  rw [hsg]
  exact ⟨_, rfl⟩

theorem moduleScan_total (env : Env) (hb : benignSigEnv env)
    (mname : String) (ip ii : Bool) :
    ∀ members, ∃ q, moduleScan env mname ip ii members = .ok q := by
  intro members
  induction members with
  | nil => exact ⟨_, rfl⟩
  | cons hd rest ih =>
    obtain ⟨n0, o0⟩ := hd
    simp only [moduleScan]
    split
    · exact ih
    · split
      · exact ih
      · split
        · exact ih
        · split
          · obtain ⟨ci, hci⟩ := inspect_class_total env hb o0 (mname ++ "." ++ n0) ip
            rw [hci]
            obtain ⟨q, hq⟩ := ih
            obtain ⟨a, b, c, d⟩ := q
            rw [hq]
            exact ⟨_, rfl⟩
          · split
            · obtain ⟨i, hi⟩ := _create_member_info_total env hb o0 n0
                (classify_object env o0 n0) mname _
              rw [hi]
              obtain ⟨q, hq⟩ := ih
              obtain ⟨a, b, c, d⟩ := q
              rw [hq]
              exact ⟨_, rfl⟩
            · split
              · obtain ⟨i, hi⟩ := _create_member_info_total env hb o0 n0
                  (classify_object env o0 n0) mname _
                rw [hi]
                obtain ⟨q, hq⟩ := ih
                obtain ⟨a, b, c, d⟩ := q
                rw [hq]
                exact ⟨_, rfl⟩
              · split
                · obtain ⟨i, hi⟩ := _create_member_info_total env hb o0 n0
                    (classify_object env o0 n0) mname _
                  rw [hi]
                  obtain ⟨q, hq⟩ := ih
                  obtain ⟨a, b, c, d⟩ := q
                  rw [hq]
                  exact ⟨_, rfl⟩
                · exact ih

/-- C1 counterexample environment: module m binds "bad" — a callable
instance whose signature query raises an exception that is neither
ValueError nor TypeError (legal in CPython: a __signature__ property
that raises propagates out of inspect.signature as-is) — followed by a
well-behaved binding "good". -/
def envC1 : Env :=
  { heap := fun n =>
      if n = 0 then
        { isModule := true
          moduleName := "m"
          members := [("bad", 1), ("good", 2)] }
      else if n = 1 then
        { isCallable := true
          sigResult := .error (.other "boom") }
      else { isScalar := true }
    loadModule := fun s => if s = "m" then .ok 0 else .error (.importError "nope")
    getAttrib := fun _ _ => .error (.attributeError "no attr") }

/-- C1 counterexample: the failure while extracting member "bad" aborts
the whole namespace scan — inspect_module returns the error instead of
any ModuleInfo (the later binding "good" is never reported), and the
exception escapes to the inspect_path boundary, which returns the
degraded error envelope rather than a ModuleInfo.  This refutes the
claim that any exception raised while processing one binding leaves the
enumeration intact. -/
theorem claim_C1_counterexample :
    inspect_module envC1 0 false false = .error (.other "boom") ∧
    excIsOk (inspect_module envC1 0 false false) = false ∧
    inspect_path envC1 "m" false false =
      { target := "m", resolved_path := "m", kind := .VARIABLE,
        info := Info.member
          { name := "m", kind := .VARIABLE, qualified_name := "m" },
        error := some "boom" } :=
  ⟨rfl, rfl, rfl⟩

/-- C1 amended: per-member extraction failures of the kinds the
extractors anticipate are contained — when every object's signature
query fails only with ValueError/TypeError (the exceptions the code
catches; value rendering absorbs all its failures and member source is
never fetched during a scan), inspect_module always returns a
ModuleInfo, for every namespace and both filter flags.  An exception of
any other class raised while processing one binding, however, aborts the
enumeration (see the counterexample). -/
theorem claim_C1_containment (env : Env) (hb : benignSigEnv env)
    (m : Nat) (ip ii : Bool) :
    excIsOk (inspect_module env m ip ii) = true := by
  obtain ⟨q, hq⟩ := moduleScan_total env hb (env.heap m).moduleName ip ii
    (env.heap m).members
  obtain ⟨a, b, c, d⟩ := q
  unfold inspect_module
  dsimp only
  rw [hq]
  rfl

/-- Witness environment for C1: a module whose members' signature
queries only ever fail benignly. -/
def envC1W : Env :=
  { heap := fun n =>
      if n = 0 then
        { isModule := true
          moduleName := "m"
          members := [("x", 1)] }
      else { isScalar := true }
    loadModule := fun s => if s = "m" then .ok 0 else .error (.importError "nope")
    getAttrib := fun _ _ => .error (.attributeError "no attr") }

theorem claim_C1_witness :
    excIsOk (inspect_module envC1W 0 false false) = true := by
  apply claim_C1_containment
  intro o
  by_cases ho : o = 0
  · subst ho
    trivial
  · show match (envC1W.heap o).sigResult with
      | .ok _ => True
      | .error (.valueError _) => True
      | .error (.typeError _) => True
      | .error _ => False
    have : envC1W.heap o = { isScalar := true } := by
      simp only [envC1W]
      rw [if_neg ho]
    rw [this]
    trivial

end PyDocs
